import Mathlib

/-!
Verification of the recursive-descent / precedence-climbing parser in
`src/frontend/parser.rs`.

The parser is embedded shallowly: the mutated `Peekable` token iterator
becomes explicit state passing over a `List Token` (peek is `head?`,
`next` splits off the head), and every parsing function returns its
outcome together with the remaining token list — the stream position is
threaded even through errors, because `parse_paren_expr` keeps reading
the stream after an inner parse failed.

Rust `panic!` sites (including the `HashMap` `Index` panic inside
`get_operator_precedence`) are modelled as the distinguished failure
`PFail.panicked`, kept apart from the `ParserError` values the code
returns as `Err`.  The mutual recursion of the expression parser is made
structurally recursive on an explicit fuel counter; `PFail.fuelOut` marks
fuel exhaustion and is proved unreachable for the fuel supplied by the
wrappers (`fuelFor`), which is the termination argument of the source.
-/

namespace KalParser

/-- Binary operator symbols of the lexer.  Modelled from the spec: the
lexer (`src/frontend/lexer.rs`, the `Ops` enum) is not part of the
staged sources.  The spec's data model gives operator tokens "the
operator symbol" as payload and §9 speaks of "operator-shaped" tokens
absent from the precedence table, so besides the five operators the
precedence table of `parser.rs` lists, one further operator symbol
`Unknown` (an operator the table does not know) is included. -/
inductive Ops where
  | Plus
  | Minus
  | Mult
  | Div
  | Modulo
  | Unknown
deriving Repr, DecidableEq

/-- Lexical tokens.  Modelled from the spec: the lexer is not part of the
staged sources; the spec's data model lists identifier, numeric literal,
operator, punctuation and keyword kinds, and the parser's code consumes
`Identifier`, `Number`, `Operator`, `OpenParen`, `ClosedParen` and
`Comma` and swallows leading keyword tokens (`DefKw`, `ExtKw`).  The
numeric payload (an `f64` the parser never inspects, only carries into
the AST) is modelled as a `Nat` numeral. -/
inductive Token where
  | Identifier : String → Token
  | Number : Nat → Token
  | Operator : Ops → Token
  | OpenParen : Token
  | ClosedParen : Token
  | Comma : Token
  | Semicolon : Token
  | DefKw : Token
  | ExtKw : Token
deriving Repr, DecidableEq

/-- The error enum `ParserError` of `parser.rs`. -/
inductive ParserError where
  | UnexpectedToken : Token → ParserError
  | UnexpectedEOI : ParserError
  | ExpectedToken : Token → ParserError
deriving Repr, DecidableEq

/-- How a parsing function can fail: a returned `ParserError`, a Rust
`panic` (process abort, never a returned value in the source), or fuel
exhaustion of the embedding (proved unreachable for the wrappers' fuel). -/
inductive PFail where
  | parseErr : ParserError → PFail
  | panicked : String → PFail
  | fuelOut : PFail
deriving Repr, DecidableEq

/-- Expression AST nodes (`NumberExpr`, `VariableExpr`, `BinaryExpr`,
`CallExpr` of `ast.rs`), as the closed sum type the spec's §9 describes
for the boxed trait objects. -/
inductive AST where
  | NumberExpr : Nat → AST
  | VariableExpr : String → AST
  | BinaryExpr : Ops → AST → AST → AST
  | CallExpr : String → List AST → AST
deriving Repr

/-- The `Prototype` node: function name and parameter names. -/
structure Prototype where
  name : String
  args : List String
deriving Repr, DecidableEq

/-- The `Function` node: a prototype and a body expression. -/
structure Function where
  proto : Prototype
  body : AST
deriving Repr

/-- The `OP_PRECEDENCE` map of `parser.rs`: exactly `Plus`/`Minus` at 20
and `Mult`/`Div`/`Modulo` at 40.  Lookup is partial, as a `HashMap` is:
`none` is an absent key (where Rust's `Index` panics). -/
def OP_PRECEDENCE : Ops → Option Int
  | .Plus => some 20
  | .Minus => some 20
  | .Mult => some 40
  | .Div => some 40
  | .Modulo => some 40
  | .Unknown => none

/-- The `get_operator_precedence` of `parser.rs`: a non-operator token
gets precedence `-1`; an operator token is looked up with the `HashMap`
index operator, which panics (`none`) when the key is absent. -/
def get_operator_precedence (token : Token) : Option Int :=
  match token with
  | .Operator operator => OP_PRECEDENCE operator
  | _ => some (-1)

/-- The `parse_number_expr` of `parser.rs`: consume one token; a number
becomes `NumberExpr`, anything else (or end of input) is the panic
branch. -/
def parse_number_expr (ts : List Token) : Except PFail AST × List Token :=
  match ts with
  | .Number num :: rest => (.ok (.NumberExpr num), rest)
  | _ :: rest => (.error (.panicked "Expected next token to be number for parse_number_expr"), rest)
  | [] => (.error (.panicked "Expected next token to be number for parse_number_expr"), [])

/-- The `while let Some(Token::Identifier(s)) = tokens.peek()` loop of
`parse_prototype`: collect consecutive identifier tokens as parameter
names, stop at the first non-identifier. -/
def parse_proto_args : List Token → List String × List Token
  | .Identifier s :: rest =>
    let (args, ts) := parse_proto_args rest
    (s :: args, ts)
  | ts => ([], ts)

/-- The `parse_prototype` of `parser.rs`: a name token (else
`ExpectedToken(Identifier(""))`), a required `(` (else
`ExpectedToken(OpenParen)`), zero or more identifier parameter names,
a required `)` (else `ExpectedToken(ClosedParen)`). -/
def parse_prototype (ts : List Token) : Except PFail Prototype × List Token :=
  match ts with
  | .Identifier name :: ts1 =>
    match ts1 with
    | .OpenParen :: ts2 =>
      let (args, ts3) := parse_proto_args ts2
      match ts3 with
      | .ClosedParen :: ts4 => (.ok ⟨name, args⟩, ts4)
      | _ :: ts4 => (.error (.parseErr (.ExpectedToken .ClosedParen)), ts4)
      | [] => (.error (.parseErr (.ExpectedToken .ClosedParen)), [])
    | _ :: ts2 => (.error (.parseErr (.ExpectedToken .OpenParen)), ts2)
    | [] => (.error (.parseErr (.ExpectedToken .OpenParen)), [])
  | _ :: ts1 => (.error (.parseErr (.ExpectedToken (.Identifier ""))), ts1)
  | [] => (.error (.parseErr (.ExpectedToken (.Identifier ""))), [])

mutual

/-- The `parse_primary` of `parser.rs` (fuel-indexed): dispatch on the
peeked token to the identifier, number or parenthesis parser; any other
token is `UnexpectedToken`, end of input is `UnexpectedEOI`. -/
def parse_primaryF : Nat → List Token → Except PFail AST × List Token
  | 0, ts => (.error .fuelOut, ts)
  | fuel + 1, ts =>
    match ts.head? with
    | some (.Identifier _) => parse_identifier_exprF fuel ts
    | some (.Number _) => parse_number_expr ts
    | some .OpenParen => parse_paren_exprF fuel ts
    | some unexpected => (.error (.parseErr (.UnexpectedToken unexpected)), ts)
    | none => (.error (.parseErr .UnexpectedEOI), ts)

/-- The `parse_identifier_expr` of `parser.rs` (fuel-indexed): consume
the identifier (panic branch when it is not one); when `(` follows,
consume it, run the argument loop and consume the token after it
unchecked, yielding `CallExpr`; otherwise yield `VariableExpr`. -/
def parse_identifier_exprF : Nat → List Token → Except PFail AST × List Token
  | 0, ts => (.error .fuelOut, ts)
  | fuel + 1, ts =>
    match ts with
    | .Identifier name :: ts1 =>
      match ts1.head? with
      | some .OpenParen =>
        match parse_call_argsF fuel ts1.tail [] with
        | (.ok arglist, ts2) => (.ok (.CallExpr name arglist), ts2.tail)
        | (.error e, ts2) => (.error e, ts2)
      | _ => (.ok (.VariableExpr name), ts1)
    | _ :: ts1 => (.error (.panicked "Expected"), ts1)
    | [] => (.error (.panicked "Expected"), [])

/-- The argument `loop` inside `parse_identifier_expr` (fuel-indexed):
break when the peeked token is `)`; otherwise parse one full expression
and push it; consume a following comma if present; in every case loop
again. -/
def parse_call_argsF : Nat → List Token → List AST → Except PFail (List AST) × List Token
  | 0, ts, _ => (.error .fuelOut, ts)
  | fuel + 1, ts, arglist =>
    match ts.head? with
    | some .ClosedParen => (.ok arglist, ts)
    | _ =>
      match parse_expressionF fuel ts with
      | (.error e, ts1) => (.error e, ts1)
      | (.ok arg_expr, ts1) =>
        match ts1.head? with
        | some .Comma => parse_call_argsF fuel ts1.tail (arglist ++ [arg_expr])
        | _ => parse_call_argsF fuel ts1 (arglist ++ [arg_expr])

/-- The `parse_paren_expr` of `parser.rs` (fuel-indexed): consume the
`(` unchecked, parse an expression (keeping its `Result`), then read the
next token: a `)` returns the inner result unchanged, any other token
is `UnexpectedToken`, end of input `UnexpectedEOI`. -/
def parse_paren_exprF : Nat → List Token → Except PFail AST × List Token
  | 0, ts => (.error .fuelOut, ts)
  | fuel + 1, ts =>
    let (expr, ts1) := parse_expressionF fuel ts.tail
    match ts1 with
    | .ClosedParen :: ts2 => (expr, ts2)
    | unexpected :: ts2 => (.error (.parseErr (.UnexpectedToken unexpected)), ts2)
    | [] => (.error (.parseErr .UnexpectedEOI), [])

/-- The `parse_expression` of `parser.rs` (fuel-indexed): a primary
expression, then the binary-operator climber at threshold 0. -/
def parse_expressionF : Nat → List Token → Except PFail AST × List Token
  | 0, ts => (.error .fuelOut, ts)
  | fuel + 1, ts =>
    match parse_primaryF fuel ts with
    | (.error e, ts1) => (.error e, ts1)
    | (.ok lhs, ts1) => parse_binop_rhsF fuel ts1 lhs 0

/-- The `parse_binop_rhs` loop of `parser.rs` (fuel-indexed; the `loop`
is the tail-recursive continue).  Peek: end of input is `UnexpectedEOI`;
the peeked token's precedence below the threshold returns the
accumulated left-hand side.  Otherwise consume the operator (panic
branch when it is not one), parse a primary right-hand side, and — as
the source does — recompute `next_prec` from `next_tok`, the operator
token just consumed, recursing with threshold `tok_prec + 1` when
`tok_prec < next_prec`; fold into `BinaryExpr` and continue. -/
def parse_binop_rhsF : Nat → List Token → AST → Int → Except PFail AST × List Token
  | 0, ts, _, _ => (.error .fuelOut, ts)
  | fuel + 1, ts, lhs, expr_prec =>
    match ts.head? with
    | none => (.error (.parseErr .UnexpectedEOI), ts)
    | some token =>
      match get_operator_precedence token with
      | none => (.error (.panicked "no entry found for key"), ts)
      | some tok_prec =>
        if tok_prec < expr_prec then
          (.ok lhs, ts)
        else
          match ts with
          | .Operator op :: ts1 =>
            match parse_primaryF fuel ts1 with
            | (.error e, ts2) => (.error e, ts2)
            | (.ok rhs0, ts2) =>
              match get_operator_precedence (.Operator op) with
              | none => (.error (.panicked "no entry found for key"), ts2)
              | some next_prec =>
                if tok_prec < next_prec then
                  match parse_binop_rhsF fuel ts2 rhs0 (tok_prec + 1) with
                  | (.error e, ts3) => (.error e, ts3)
                  | (.ok rhs, ts3) =>
                    parse_binop_rhsF fuel ts3 (.BinaryExpr op lhs rhs) expr_prec
                else
                  parse_binop_rhsF fuel ts2 (.BinaryExpr op lhs rhs0) expr_prec
          | _ :: ts1 => (.error (.panicked "Should be operator here"), ts1)
          | [] => (.error (.panicked "Should be operator here"), [])

end

/-- Fuel that suffices for any parse of `ts` (proved adequate below):
linear in the token count, mirroring that every recursion of the source
either consumes a token or moves a bounded number of frames deeper. -/
def fuelFor (ts : List Token) : Nat := 4 * ts.length + 9

/-- The `parse_primary` entry, at adequate fuel. -/
def parse_primary (ts : List Token) : Except PFail AST × List Token :=
  parse_primaryF (fuelFor ts) ts

/-- The `parse_identifier_expr` entry, at adequate fuel. -/
def parse_identifier_expr (ts : List Token) : Except PFail AST × List Token :=
  parse_identifier_exprF (fuelFor ts) ts

/-- The `parse_paren_expr` entry, at adequate fuel. -/
def parse_paren_expr (ts : List Token) : Except PFail AST × List Token :=
  parse_paren_exprF (fuelFor ts) ts

/-- The `parse_expression` entry, at adequate fuel. -/
def parse_expression (ts : List Token) : Except PFail AST × List Token :=
  parse_expressionF (fuelFor ts) ts

/-- The `parse_binop_rhs` entry, at adequate fuel. -/
def parse_binop_rhs (ts : List Token) (lhs : AST) (expr_prec : Int) :
    Except PFail AST × List Token :=
  parse_binop_rhsF (fuelFor ts) ts lhs expr_prec

/-- The `parse_extern` of `parser.rs`: discard one leading token
(`let _keyword = tokens.next()`) unchecked, then parse a prototype. -/
def parse_extern (ts : List Token) : Except PFail Prototype × List Token :=
  parse_prototype ts.tail

/-- The `parse_definition` of `parser.rs`: discard one leading token
("swallow the def keyword") unchecked, then a prototype, then one
expression as the body. -/
def parse_definition (ts : List Token) : Except PFail Function × List Token :=
  match parse_prototype ts.tail with
  | (.error e, ts1) => (.error e, ts1)
  | (.ok proto, ts1) =>
    match parse_expression ts1 with
    | (.error e, ts2) => (.error e, ts2)
    | (.ok body, ts2) => (.ok ⟨proto, body⟩, ts2)

/-- The `parse_top_level_expr` of `parser.rs`: one expression, wrapped
in a `Function` with the reserved anonymous zero-argument prototype. -/
def parse_top_level_expr (ts : List Token) : Except PFail Function × List Token :=
  match parse_expression ts with
  | (.error e, ts1) => (.error e, ts1)
  | (.ok expr, ts1) => (.ok ⟨⟨"<anonymous>", []⟩, expr⟩, ts1)

/-- Tokens `parse_primary` dispatches on (identifier, number, `(`). -/
def primary_dispatchable : Token → Bool
  | .Identifier _ => true
  | .Number _ => true
  | .OpenParen => true
  | _ => false

/-- Whether a token is an identifier token. -/
def is_identifier_tok : Token → Bool
  | .Identifier _ => true
  | _ => false

/-- Whether a token is the closing parenthesis. -/
def is_closed_paren : Token → Bool
  | .ClosedParen => true
  | _ => false

/-- Whether a parse outcome is the embedding's fuel-exhaustion marker. -/
def ran_out {α : Type} : Except PFail α × List Token → Bool
  | (.error .fuelOut, _) => true
  | _ => false

/-- Whether a token is the opening parenthesis. -/
def is_open_paren : Token → Bool
  | .OpenParen => true
  | _ => false

/-- Whether a token list starts with an identifier token. -/
def head_is_identifier : List Token → Bool
  | .Identifier _ :: _ => true
  | _ => false

/-- The parameter-name loop of `parse_prototype` consumes exactly the
leading identifier tokens: on a run of identifiers followed by anything
that is not an identifier, it returns those names in order and leaves the
rest untouched. -/
theorem proto_args_append (ps : List String) (rest : List Token)
    (h : head_is_identifier rest = false) :
    parse_proto_args (ps.map Token.Identifier ++ rest) = (ps, rest) := by
  induction ps with
  | nil =>
    simp only [List.map_nil, List.nil_append]
    cases rest with
    | nil => rfl
    | cons t r => cases t <;> first | rfl | simp [head_is_identifier] at h
  | cons p ps ih => simp [parse_proto_args, ih]

/-- C1: the claim says the climber compares the just-consumed operator
against the *next pending* operator and therefore nests tighter-binding
operators deeper, parsing `a + b * c` as
`BinaryExpr(+, a, BinaryExpr(*, b, c))`.  The source computes
`next_prec` from `next_tok`, the operator it has itself just consumed,
so the comparison `tok_prec < next_prec` is a self-comparison that is
always false and the climb branch is dead: `a + b * c ;` parses as
`BinaryExpr(*, BinaryExpr(+, a, b), c)`, and without a trailing
terminator the very same input even fails with `UnexpectedEOI`. -/
theorem c1_mixed_precedence_folds_left :
    parse_expression [Token.Identifier "a", Token.Operator .Plus, Token.Identifier "b",
        Token.Operator .Mult, Token.Identifier "c", Token.Semicolon] =
      (.ok (.BinaryExpr .Mult (.BinaryExpr .Plus (.VariableExpr "a") (.VariableExpr "b"))
        (.VariableExpr "c")), [Token.Semicolon])
    ∧ parse_expression [Token.Identifier "a", Token.Operator .Plus, Token.Identifier "b",
        Token.Operator .Mult, Token.Identifier "c"] =
      (.error (.parseErr .UnexpectedEOI), []) :=
  ⟨rfl, rfl⟩

/-- C2 counterexample: for the token stream of exactly `2 + 3`, ending at
end of input after the last operand, the claim says `parse_expression`
returns `BinaryExpr(+, NumberExpr(2), NumberExpr(3))`; the code instead
fails with `UnexpectedEOI`, because the climber's loop head treats end of
input as an error even when no binary continuation was expected. -/
theorem c2_eoi_after_last_operand_errors :
    parse_expression [Token.Number 2, Token.Operator .Plus, Token.Number 3] =
      (.error (.parseErr .UnexpectedEOI), []) :=
  rfl

/-- C2 amended: the climber fails with `UnexpectedEOI` whenever end of
input is reached at the head of a climb iteration — even directly after a
complete expression — so `2 + 3` parses to
`BinaryExpr(+, NumberExpr(2), NumberExpr(3))` only when a non-operator
token (the repository's own test uses `;`) follows the last operand. -/
theorem c2_amended_terminator_required :
    (∀ lhs expr_prec, parse_binop_rhs [] lhs expr_prec =
      (.error (.parseErr .UnexpectedEOI), []))
    ∧ parse_expression [Token.Number 2, Token.Operator .Plus, Token.Number 3, Token.Semicolon] =
      (.ok (.BinaryExpr .Plus (.NumberExpr 2) (.NumberExpr 3)), [Token.Semicolon]) :=
  ⟨fun _ _ => rfl, rfl⟩

/-- C3: the claim says an operator token whose operator is absent from
the precedence table gets precedence `-1` and never makes the climber
panic.  `get_operator_precedence` indexes the `OP_PRECEDENCE` map with
`[]`, which panics on an absent key (modelled as `none`), so on the
spec-modelled table-less operator the lookup panics (`none`) instead of
returning `-1`, and an expression containing that operator aborts the
climb with that panic rather than terminating it silently. -/
theorem c3_unknown_operator_panics :
    get_operator_precedence (Token.Operator .Unknown) = none
    ∧ parse_expression [Token.Number 1, Token.Operator .Unknown, Token.Number 2] =
      (.error (.panicked "no entry found for key"), [Token.Operator .Unknown, Token.Number 2]) :=
  ⟨rfl, rfl⟩

/-- C4 counterexample: the claim says a missing closing parenthesis
makes the parser fail with `ExpectedToken`; on `( 2 3` the code fails
with `UnexpectedToken(Number 3)` — the token found where `)` was
required — not with an `ExpectedToken` error. -/
theorem c4_missing_close_paren_unexpected_token :
    parse_paren_expr [Token.OpenParen, Token.Number 2, Token.Number 3] =
      (.error (.parseErr (.UnexpectedToken (Token.Number 3))), [])
    ∧ ((PFail.parseErr (.UnexpectedToken (Token.Number 3)) =
        PFail.parseErr (.ExpectedToken Token.ClosedParen)) = False) :=
  ⟨rfl, by simp⟩

/-- C4 amended: after the inner expression is parsed, a matching closing
parenthesis is required and consumed, and on success the inner
expression is returned unchanged (no node for the parentheses); when the
closing parenthesis is absent the parser fails with
`UnexpectedToken(token)` on a different token and with `UnexpectedEOI`
at end of input — not with `ExpectedToken`. -/
theorem c4_amended_paren_close_behavior :
    (∀ fuel ts e ts2,
      parse_expressionF fuel ts.tail = (.ok e, Token.ClosedParen :: ts2) →
      parse_paren_exprF (fuel + 1) ts = (.ok e, ts2))
    ∧ (∀ fuel ts e t ts2,
      parse_expressionF fuel ts.tail = (.ok e, t :: ts2) →
      is_closed_paren t = false →
      parse_paren_exprF (fuel + 1) ts = (.error (.parseErr (.UnexpectedToken t)), ts2))
    ∧ (∀ fuel ts e,
      parse_expressionF fuel ts.tail = (.ok e, []) →
      parse_paren_exprF (fuel + 1) ts = (.error (.parseErr .UnexpectedEOI), [])) := by
  refine ⟨?_, ?_, ?_⟩
  · intro fuel ts e ts2 h
    simp [parse_paren_exprF, h]
  · intro fuel ts e t ts2 h hcp
    cases t <;> simp_all [parse_paren_exprF, is_closed_paren]
  · intro fuel ts e h
    simp [parse_paren_exprF, h]

/-- C4 witness: the amended behavior at concrete inputs — `( 7 )` at
fuel 8 inside returns the inner `NumberExpr 7` unchanged with the `)`
consumed. -/
theorem c4_amended_witness :
    parse_paren_exprF 9 [Token.OpenParen, Token.Number 7, Token.ClosedParen] =
      (.ok (.NumberExpr 7), []) :=
  c4_amended_paren_close_behavior.1 8 [Token.OpenParen, Token.Number 7, Token.ClosedParen]
    (.NumberExpr 7) [] rfl

/-- C5: every lookahead token that is not an identifier, a numeric
literal or an opening parenthesis makes `parse_primary` fail with
`UnexpectedToken` carrying that token (the token is only peeked, so the
stream is unchanged), end of input makes it fail with `UnexpectedEOI`,
and neither case is a panic. -/
theorem c5_primary_rejects_other_tokens :
    (∀ t ts, primary_dispatchable t = false →
      parse_primary (t :: ts) = (.error (.parseErr (.UnexpectedToken t)), t :: ts))
    ∧ parse_primary [] = (.error (.parseErr .UnexpectedEOI), []) := by
  refine ⟨?_, rfl⟩
  intro t ts h
  cases t
  case Identifier s => simp [primary_dispatchable] at h
  case Number n => simp [primary_dispatchable] at h
  case OpenParen => simp [primary_dispatchable] at h
  all_goals rfl

/-- C5 witness: a comma is not dispatchable and is rejected as
`UnexpectedToken(Comma)` without being consumed. -/
theorem c5_witness :
    primary_dispatchable Token.Comma = false
    ∧ parse_primary [Token.Comma] =
      (.error (.parseErr (.UnexpectedToken Token.Comma)), [Token.Comma]) :=
  ⟨rfl, c5_primary_rejects_other_tokens.1 Token.Comma [] rfl⟩

/-- C6: the prototype parser consumes a name token (failing with
`ExpectedToken` citing an identifier when the next token is not an
identifier or the stream is empty), then a required `(` (failing with
`ExpectedToken(OpenParen)` otherwise), then zero or more consecutive
identifier tokens as parameter names with no separators, then a required
`)` (failing with `ExpectedToken(ClosedParen)` otherwise), and on
success returns a `Prototype` with that name and those parameter names
in order. -/
theorem c6_prototype_shape :
    (∀ t ts, is_identifier_tok t = false →
      parse_prototype (t :: ts) =
        (.error (.parseErr (.ExpectedToken (Token.Identifier ""))), ts))
    ∧ parse_prototype [] = (.error (.parseErr (.ExpectedToken (Token.Identifier ""))), [])
    ∧ (∀ nm t ts, is_open_paren t = false →
      parse_prototype (Token.Identifier nm :: t :: ts) =
        (.error (.parseErr (.ExpectedToken Token.OpenParen)), ts))
    ∧ (∀ nm, parse_prototype [Token.Identifier nm] =
        (.error (.parseErr (.ExpectedToken Token.OpenParen)), []))
    ∧ (∀ (nm : String) (ps : List String) (rest : List Token),
      parse_prototype (Token.Identifier nm :: Token.OpenParen ::
          (ps.map Token.Identifier ++ (Token.ClosedParen :: rest))) =
        (.ok ⟨nm, ps⟩, rest))
    ∧ (∀ (nm : String) (ps : List String) (t : Token) (rest : List Token),
      is_identifier_tok t = false → is_closed_paren t = false →
      parse_prototype (Token.Identifier nm :: Token.OpenParen ::
          (ps.map Token.Identifier ++ (t :: rest))) =
        (.error (.parseErr (.ExpectedToken Token.ClosedParen)), rest))
    ∧ (∀ (nm : String) (ps : List String),
      parse_prototype (Token.Identifier nm :: Token.OpenParen :: ps.map Token.Identifier) =
        (.error (.parseErr (.ExpectedToken Token.ClosedParen)), [])) := by
  refine ⟨?_, rfl, ?_, ?_, ?_, ?_, ?_⟩
  · intro t ts h
    cases t
    case Identifier s => simp [is_identifier_tok] at h
    all_goals rfl
  · intro nm t ts h
    cases t
    case OpenParen => simp [is_open_paren] at h
    all_goals rfl
  · intro nm
    rfl
  · intro nm ps rest
    have hpa := proto_args_append ps (Token.ClosedParen :: rest) rfl
    simp [parse_prototype, hpa]
  · intro nm ps t rest h1 h2
    have hh : head_is_identifier (t :: rest) = false := by
      cases t <;> simp_all [head_is_identifier, is_identifier_tok]
    have hpa := proto_args_append ps (t :: rest) hh
    cases t
    case Identifier s => simp [is_identifier_tok] at h1
    case ClosedParen => simp [is_closed_paren] at h2
    all_goals simp [parse_prototype, hpa]
  · intro nm ps
    have hpa : parse_proto_args (ps.map Token.Identifier) = (ps, []) := by
      simpa using proto_args_append ps [] rfl
    simp [parse_prototype, hpa]

/-- C6 witness: `foo ( x y )` parses to the prototype named `foo` with
parameters `[x, y]`, and `f ( 5` fails with
`ExpectedToken(ClosedParen)`. -/
theorem c6_witness :
    parse_prototype [Token.Identifier "foo", Token.OpenParen, Token.Identifier "x",
        Token.Identifier "y", Token.ClosedParen] = (.ok ⟨"foo", ["x", "y"]⟩, [])
    ∧ parse_prototype [Token.Identifier "f", Token.OpenParen, Token.Number 5] =
      (.error (.parseErr (.ExpectedToken Token.ClosedParen)), []) :=
  ⟨c6_prototype_shape.2.2.2.2.1 "foo" ["x", "y"] [],
    c6_prototype_shape.2.2.2.2.2.1 "f" [] (Token.Number 5) [] rfl rfl⟩

/-- C7 counterexample: the claim says every parsing entry point returns
exactly the first error produced, unchanged.  On `( ( 1 2 x` the first
error produced is `UnexpectedToken(Number 2)` (raised by the inner
parenthesis parser, as the standalone run of `( 1 2 x` shows), yet
`parse_top_level_expr` returns `UnexpectedToken(Identifier "x")`: the
enclosing `parse_paren_expr` read one more token after the inner error
and replaced the error with its own. -/
theorem c7_paren_replaces_inner_error :
    parse_paren_expr [Token.OpenParen, Token.Number 1, Token.Number 2, Token.Identifier "x"] =
      (.error (.parseErr (.UnexpectedToken (Token.Number 2))), [Token.Identifier "x"])
    ∧ parse_top_level_expr [Token.OpenParen, Token.OpenParen, Token.Number 1, Token.Number 2,
        Token.Identifier "x"] =
      (.error (.parseErr (.UnexpectedToken (Token.Identifier "x"))), [])
    ∧ ((ParserError.UnexpectedToken (Token.Number 2) =
        ParserError.UnexpectedToken (Token.Identifier "x")) = False) :=
  ⟨rfl, rfl, by simp⟩

/-- C7 amended: the public entry points themselves propagate a failing
sub-parser's error unchanged and never return a partial node —
`parse_extern` and `parse_definition` return `parse_prototype`'s error,
`parse_definition` returns the body expression's error, and
`parse_top_level_expr` returns `parse_expression`'s error — but an
error arising inside a parenthesized sub-expression can be replaced on
the way out by `parse_paren_expr`, which keeps reading the stream after
the inner error. -/
theorem c7_amended_entry_points_propagate :
    (∀ ts e ts1, parse_prototype ts.tail = (.error e, ts1) →
      parse_extern ts = (.error e, ts1))
    ∧ (∀ ts e ts1, parse_prototype ts.tail = (.error e, ts1) →
      parse_definition ts = (.error e, ts1))
    ∧ (∀ ts p ts1 e ts2, parse_prototype ts.tail = (.ok p, ts1) →
      parse_expression ts1 = (.error e, ts2) →
      parse_definition ts = (.error e, ts2))
    ∧ (∀ ts e ts1, parse_expression ts = (.error e, ts1) →
      parse_top_level_expr ts = (.error e, ts1)) := by
  refine ⟨?_, ?_, ?_, ?_⟩
  · intro ts e ts1 h
    exact h
  · intro ts e ts1 h
    simp [parse_definition, h]
  · intro ts p ts1 e ts2 h1 h2
    simp [parse_definition, h1, h2]
  · intro ts e ts1 h
    simp [parse_top_level_expr, h]

/-- C7 witness: the amended propagation at concrete inputs — a lone
comma makes `parse_expression` fail with `UnexpectedToken(Comma)` and
`parse_top_level_expr` returns exactly that error; an empty stream after
the swallowed keyword makes `parse_prototype` fail and `parse_extern`
returns exactly that error. -/
theorem c7_amended_witness :
    parse_top_level_expr [Token.Comma] =
      (.error (.parseErr (.UnexpectedToken Token.Comma)), [Token.Comma])
    ∧ parse_extern [Token.Comma] =
      (.error (.parseErr (.ExpectedToken (Token.Identifier ""))), []) :=
  ⟨c7_amended_entry_points_propagate.2.2.2 [Token.Comma]
      (.parseErr (.UnexpectedToken Token.Comma)) [Token.Comma] rfl,
    c7_amended_entry_points_propagate.1 [Token.Comma]
      (.parseErr (.ExpectedToken (Token.Identifier ""))) [] rfl⟩

/-- C9: `parse_extern` and `parse_definition` discard the first token of
the stream unconditionally — whatever token comes first (or none at
all), parsing proceeds identically, as if the keyword had been present,
so no stream is rejected on account of a missing keyword. -/
theorem c9_leading_token_swallowed :
    (∀ t ts, parse_extern (t :: ts) = parse_prototype ts)
    ∧ parse_extern [] = parse_prototype []
    ∧ (∀ t ts, parse_definition (t :: ts) = parse_definition (Token.DefKw :: ts))
    ∧ (∀ t ts, parse_extern (t :: ts) = parse_extern (Token.ExtKw :: ts)) :=
  ⟨fun _ _ => rfl, rfl, fun _ _ => rfl, fun _ _ => rfl⟩

/-- C10: commas between call arguments are optional — after one
argument, a token that is neither a comma nor `)` simply starts the next
argument expression, so `foo(a b)` succeeds and yields the same
`CallExpr(foo, [VariableExpr(a), VariableExpr(b)])` as `foo(a, b)`. -/
theorem c10_commas_optional_in_call_args :
    parse_identifier_expr [Token.Identifier "foo", Token.OpenParen, Token.Identifier "a",
        Token.Identifier "b", Token.ClosedParen] =
      (.ok (.CallExpr "foo" [.VariableExpr "a", .VariableExpr "b"]), [])
    ∧ parse_identifier_expr [Token.Identifier "foo", Token.OpenParen, Token.Identifier "a",
        Token.Comma, Token.Identifier "b", Token.ClosedParen] =
      (.ok (.CallExpr "foo" [.VariableExpr "a", .VariableExpr "b"]), []) :=
  ⟨rfl, rfl⟩

/-- Every parser consumes tokens: a successful parse of a primary,
identifier, parenthesized or full expression leaves strictly fewer
tokens; the argument loop and the climber never leave more than they
were given.  This is the progress fact behind the source's
termination. -/
theorem consume_bounds : ∀ fuel : Nat,
    (∀ ts r ts', parse_primaryF fuel ts = (.ok r, ts') → ts'.length < ts.length)
    ∧ (∀ ts r ts', parse_identifier_exprF fuel ts = (.ok r, ts') → ts'.length < ts.length)
    ∧ (∀ ts acc r ts', parse_call_argsF fuel ts acc = (.ok r, ts') → ts'.length ≤ ts.length)
    ∧ (∀ ts r ts', parse_paren_exprF fuel ts = (.ok r, ts') → ts'.length < ts.length)
    ∧ (∀ ts r ts', parse_expressionF fuel ts = (.ok r, ts') → ts'.length < ts.length)
    ∧ (∀ ts lhs p r ts', parse_binop_rhsF fuel ts lhs p = (.ok r, ts') → ts'.length ≤ ts.length) := by
  intro fuel
  induction fuel with
  | zero =>
    refine ⟨?_, ?_, ?_, ?_, ?_, ?_⟩ <;> intros <;>
      simp_all [parse_primaryF, parse_identifier_exprF, parse_call_argsF,
        parse_paren_exprF, parse_expressionF, parse_binop_rhsF]
  | succ fuel ih =>
    obtain ⟨ihP, ihI, ihA, ihR, ihE, ihB⟩ := ih
    refine ⟨?_, ?_, ?_, ?_, ?_, ?_⟩
    · -- parse_primaryF
      intro ts r ts' h
      cases ts with
      | nil => simp [parse_primaryF] at h
      | cons t ts0 =>
        cases t
        case Identifier s => exact ihI _ _ _ h
        case OpenParen => exact ihR _ _ _ h
        case Number n =>
          have h' : ((Except.ok (AST.NumberExpr n) : Except PFail AST), ts0) = (.ok r, ts') := h
          injection h' with h1 h2
          subst h2
          simp
        all_goals simp [parse_primaryF] at h
    · -- parse_identifier_exprF
      intro ts r ts' h
      cases ts with
      | nil => simp [parse_identifier_exprF] at h
      | cons t ts1 =>
        cases t
        case Identifier name =>
          cases ts1 with
          | nil =>
            simp [parse_identifier_exprF] at h
            simp [h.2.symm]
          | cons t2 ts2 =>
            cases t2
            case OpenParen =>
              simp only [parse_identifier_exprF, List.head?_cons, List.tail_cons] at h
              rcases hA : parse_call_argsF fuel ts2 [] with ⟨out, u⟩
              rw [hA] at h
              cases out with
              | error e => simp at h
              | ok a =>
                have hle := ihA _ _ _ _ hA
                have htail := List.length_tail u
                simp only at h
                injection h with h1 h2
                subst h2
                simp only [List.length_cons]
                omega
            all_goals
              simp [parse_identifier_exprF] at h
              simp [h.2.symm]
        all_goals simp [parse_identifier_exprF] at h
    · -- parse_call_argsF
      intro ts acc r ts' h
      simp only [parse_call_argsF] at h
      split at h
      · injection h with h1 h2
        exact h2 ▸ Nat.le_refl _
      · rcases hE : parse_expressionF fuel ts with ⟨out, ts1⟩
        rw [hE] at h
        cases out with
        | error e => simp at h
        | ok arg =>
          have hlt := ihE _ _ _ hE
          simp only at h
          split at h
          · have := ihA _ _ _ _ h
            have htail := List.length_tail ts1
            omega
          · have := ihA _ _ _ _ h
            omega
    · -- parse_paren_exprF
      intro ts r ts' h
      simp only [parse_paren_exprF] at h
      rcases hE : parse_expressionF fuel ts.tail with ⟨out, ts1⟩
      rw [hE] at h
      cases ts1 with
      | nil => simp at h
      | cons u ts2 =>
        cases u
        case ClosedParen =>
          injection h with h1 h2
          subst h1
          subst h2
          have := ihE _ _ _ hE
          have htail := List.length_tail ts
          simp only [List.length_cons] at this
          omega
        all_goals simp at h
    · -- parse_expressionF
      intro ts r ts' h
      simp only [parse_expressionF] at h
      rcases hP : parse_primaryF fuel ts with ⟨out, ts1⟩
      rw [hP] at h
      cases out with
      | error e => simp at h
      | ok lhs =>
        have h1 := ihP _ _ _ hP
        have h2 := ihB _ _ _ _ _ h
        omega
    · -- parse_binop_rhsF
      intro ts lhs p r ts' h
      cases ts with
      | nil => simp [parse_binop_rhsF] at h
      | cons t ts1 =>
        cases t
        case Operator op =>
          simp only [parse_binop_rhsF, List.head?_cons] at h
          rcases hg : get_operator_precedence (Token.Operator op) with _ | tp
          · simp [hg] at h
          · simp only [hg] at h
            split at h
            · injection h with h1 h2
              exact h2 ▸ Nat.le_refl _
            · rcases hP : parse_primaryF fuel ts1 with ⟨out, ts2⟩
              cases out with
              | error e => simp [hP] at h
              | ok rhs0 =>
                simp only [hP] at h
                have hlt := ihP _ _ _ hP
                split at h
                · rcases hB1 : parse_binop_rhsF fuel ts2 rhs0 (tp + 1) with ⟨out3, ts3⟩
                  cases out3 with
                  | error e => simp [hB1] at h
                  | ok rhs =>
                    simp only [hB1] at h
                    have hle1 := ihB _ _ _ _ _ hB1
                    have hle2 := ihB _ _ _ _ _ h
                    simp only [List.length_cons]
                    omega
                · have hle := ihB _ _ _ _ _ h
                  simp only [List.length_cons]
                  omega
        all_goals
          simp only [parse_binop_rhsF, List.head?_cons, get_operator_precedence] at h
          split at h
          · injection h with h1 h2
            exact h2 ▸ Nat.le_refl _
          · simp at h

/-- On an empty stream the expression parser reports `UnexpectedEOI`
for any fuel of at least 2. -/
theorem expr_nil (fuel : Nat) (h : 2 ≤ fuel) :
    parse_expressionF fuel [] = (.error (.parseErr .UnexpectedEOI), []) := by
  obtain ⟨f, rfl⟩ : ∃ f, fuel = f + 2 := ⟨fuel - 2, by omega⟩
  rfl

/-- Fuel linear in the remaining token count is enough for every parser:
with it, no run ever returns the fuel-exhaustion marker.  This is the
termination argument for the source's mutual recursion, whose every
cycle either consumes a token or descends a bounded number of frames. -/
theorem fuel_adequacy : ∀ fuel : Nat,
    (∀ ts, 4 * ts.length + 6 ≤ fuel → (parse_primaryF fuel ts).1 ≠ Except.error PFail.fuelOut)
    ∧ (∀ ts, 4 * ts.length + 2 ≤ fuel →
      (parse_identifier_exprF fuel ts).1 ≠ Except.error PFail.fuelOut)
    ∧ (∀ ts acc, 4 * ts.length + 9 ≤ fuel →
      (parse_call_argsF fuel ts acc).1 ≠ Except.error PFail.fuelOut)
    ∧ (∀ ts, 4 * ts.length + 5 ≤ fuel →
      (parse_paren_exprF fuel ts).1 ≠ Except.error PFail.fuelOut)
    ∧ (∀ ts, 4 * ts.length + 8 ≤ fuel →
      (parse_expressionF fuel ts).1 ≠ Except.error PFail.fuelOut)
    ∧ (∀ ts lhs p, 4 * ts.length + 3 ≤ fuel →
      (parse_binop_rhsF fuel ts lhs p).1 ≠ Except.error PFail.fuelOut) := by
  intro fuel
  induction fuel with
  | zero => refine ⟨?_, ?_, ?_, ?_, ?_, ?_⟩ <;> intros <;> omega
  | succ fuel ih =>
    obtain ⟨ihP, ihI, ihA, ihR, ihE, ihB⟩ := ih
    refine ⟨?_, ?_, ?_, ?_, ?_, ?_⟩
    · -- parse_primaryF
      intro ts h
      cases ts with
      | nil => simp [parse_primaryF]
      | cons t ts0 =>
        cases t
        case Identifier s =>
          exact ihI _ (by simp only [List.length_cons] at h ⊢; omega)
        case OpenParen =>
          exact ihR _ (by simp only [List.length_cons] at h ⊢; omega)
        case Number n => simp [parse_primaryF, parse_number_expr]
        all_goals simp [parse_primaryF]
    · -- parse_identifier_exprF
      intro ts h
      cases ts with
      | nil => simp [parse_identifier_exprF]
      | cons t ts1 =>
        cases t
        case Identifier name =>
          cases ts1 with
          | nil => simp [parse_identifier_exprF]
          | cons t2 ts2 =>
            cases t2
            case OpenParen =>
              have hne := ihA ts2 [] (by simp only [List.length_cons] at h; omega)
              rcases hA : parse_call_argsF fuel ts2 [] with ⟨out, u⟩
              rw [hA] at hne
              simp only [parse_identifier_exprF, List.head?_cons, List.tail_cons, hA]
              cases out with
              | ok a => simp
              | error e => simpa using hne
            all_goals simp [parse_identifier_exprF]
        all_goals simp [parse_identifier_exprF]
    · -- parse_call_argsF
      intro ts acc h
      simp only [parse_call_argsF]
      split
      · simp
      · have hne := ihE ts (by omega)
        rcases hE : parse_expressionF fuel ts with ⟨out, ts1⟩
        rw [hE] at hne
        cases out with
        | error e => simpa using hne
        | ok arg =>
          have hlt := (consume_bounds fuel).2.2.2.2.1 ts arg ts1 hE
          have htail := List.length_tail ts1
          simp only
          split
          · exact ihA _ _ (by omega)
          · exact ihA _ _ (by omega)
    · -- parse_paren_exprF
      intro ts h
      cases ts with
      | nil =>
        have hfe := expr_nil fuel (by omega)
        simp [parse_paren_exprF, hfe]
      | cons t ts0 =>
        have hne := ihE ts0 (by simp only [List.length_cons] at h; omega)
        rcases hE : parse_expressionF fuel ts0 with ⟨out, ts1⟩
        rw [hE] at hne
        simp only [parse_paren_exprF, List.tail_cons, hE]
        cases ts1 with
        | nil => simp
        | cons u ts2 =>
          cases u
          case ClosedParen => simpa using hne
          all_goals simp
    · -- parse_expressionF
      intro ts h
      have hne := ihP ts (by omega)
      rcases hP : parse_primaryF fuel ts with ⟨out, ts1⟩
      rw [hP] at hne
      simp only [parse_expressionF, hP]
      cases out with
      | error e => simpa using hne
      | ok lhs =>
        have hlt := (consume_bounds fuel).1 ts lhs ts1 hP
        exact ihB ts1 lhs 0 (by omega)
    · -- parse_binop_rhsF
      intro ts lhs p h
      cases ts with
      | nil => simp [parse_binop_rhsF]
      | cons t ts1 =>
        cases t
        case Operator op =>
          simp only [parse_binop_rhsF, List.head?_cons]
          rcases hg : get_operator_precedence (Token.Operator op) with _ | tp
          · simp
          · simp only
            split
            · simp
            · have hneP := ihP ts1 (by simp only [List.length_cons] at h; omega)
              rcases hP : parse_primaryF fuel ts1 with ⟨out, ts2⟩
              rw [hP] at hneP
              cases out with
              | error e => simpa using hneP
              | ok rhs0 =>
                have hlt := (consume_bounds fuel).1 ts1 rhs0 ts2 hP
                simp only [List.length_cons] at h
                simp only
                split
                · omega
                · exact ihB ts2 _ p (by omega)
        all_goals
          simp only [parse_binop_rhsF, List.head?_cons, get_operator_precedence]
          split
          · simp
          · simp

/-- A parse outcome whose first component is not the fuel marker is not
flagged by `ran_out`. -/
theorem ran_out_eq_false {α : Type} (x : Except PFail α × List Token)
    (h : x.1 ≠ Except.error PFail.fuelOut) : ran_out x = false := by
  rcases x with ⟨out, rest⟩
  cases out with
  | ok a => rfl
  | error e => cases e <;> first | rfl | exact absurd rfl h

/-- The prototype parser is fuel-free and never reports fuel
exhaustion. -/
theorem prototype_not_fuel_out (ts : List Token) : ran_out ( parse_prototype ts) = false := by
  cases ts with
  | nil => rfl
  | cons t ts1 =>
    cases t <;> try rfl
    case Identifier name =>
      cases ts1 with
      | nil => rfl
      | cons t2 ts2 =>
        cases t2 <;> try rfl
        case OpenParen =>
          rcases hpa : parse_proto_args ts2 with ⟨args, ts3⟩
          cases ts3 with
          | nil => simp [ran_out, parse_prototype, hpa]
          | cons u ts4 => cases u <;> simp [ran_out, parse_prototype, hpa]

/-- With the wrapper fuel `fuelFor`, the expression parser never reports
fuel exhaustion. -/
theorem expression_not_fuel_out (ts : List Token) : ran_out (parse_expression ts) = false :=
  ran_out_eq_false _
    ((fuel_adequacy (fuelFor ts)).2.2.2.2.1 ts (by simp only [fuelFor]; omega))

/-- C8: each public parsing entry point terminates on every finite token
sequence, returning a completed AST or an error: with the linear fuel
the wrappers supply, no run of `parse_expression`, `parse_extern`,
`parse_definition` or `parse_top_level_expr` ever hits the
fuel-exhaustion marker that stands for non-termination of the mutual
recursion. -/
theorem c8_parsers_terminate (ts : List Token) :
    ran_out (parse_expression ts) = false
    ∧ ran_out ( parse_extern ts) = false
    ∧ ran_out (parse_definition ts) = false
    ∧ ran_out (parse_top_level_expr ts) = false := by
  refine ⟨expression_not_fuel_out ts, prototype_not_fuel_out ts.tail, ?_, ?_⟩
  · rcases hpr : parse_prototype ts.tail with ⟨out, ts1⟩
    have h1 := prototype_not_fuel_out ts.tail
    rw [hpr] at h1
    cases out with
    | error e =>
      cases e with
      | fuelOut => simp [ran_out] at h1
      | parseErr pe => simp [ran_out, parse_definition, hpr]
      | panicked m => simp [ran_out, parse_definition, hpr]
    | ok proto =>
      have h2 := expression_not_fuel_out ts1
      rcases hex : parse_expression ts1 with ⟨out2, ts2⟩
      rw [hex] at h2
      cases out2 with
      | error e =>
        cases e with
        | fuelOut => simp [ran_out] at h2
        | parseErr pe => simp [ran_out, parse_definition, hpr, hex]
        | panicked m => simp [ran_out, parse_definition, hpr, hex]
      | ok body => simp [ran_out, parse_definition, hpr, hex]
  · have h2 := expression_not_fuel_out ts
    rcases hex : parse_expression ts with ⟨out2, ts2⟩
    rw [hex] at h2
    cases out2 with
    | error e =>
      cases e with
      | fuelOut => simp [ran_out] at h2
      | parseErr pe => simp [ran_out, parse_top_level_expr, hex]
      | panicked m => simp [ran_out, parse_top_level_expr, hex]
    | ok body => simp [ran_out, parse_top_level_expr, hex]

end KalParser
